import Mathlib

/-!
Verification of the timeline widget against its specification.

The repository ships two variants of the same client script:
`src/script.js` (embedded below in namespace `ScriptJs`) and an unnamed
second variant (`src/unnamed/part_000`, embedded in namespace `Variant`).
Both are shallowly embedded here: JavaScript numbers are modelled as
`JNum` (NaN, the two infinities, or an exact rational value — every value
the pipeline manipulates is a small integer or a short decimal fraction,
so exact rational semantics coincides with IEEE double semantics on the
inputs exercised), fallible code returns `Except`, the fetch layer is a
pure function of the responses it receives, and the DOM cards are plain
records of the fields the code assigns.
-/

namespace Timeline

/-- A JavaScript number: NaN, +Infinity, -Infinity, or a finite value
(modelled exactly as a rational). -/
inductive JNum where
  | nan
  | posInf
  | negInf
  | fin (q : ℚ)
deriving DecidableEq

/-- Model of JavaScript `Number.isFinite`. -/
def JNum.isFinite : JNum → Bool
  | .fin _ => true
  | _ => false

/-- Model of JavaScript `Number.isNaN` / `isNaN` on a number. -/
def JNum.isNaN : JNum → Bool
  | .nan => true
  | _ => false

/-- JavaScript boolean coercion of a number: NaN, 0 and -0 are falsy
(the model conflates -0 with 0, which agrees with boolean coercion). -/
def JNum.truthy : JNum → Bool
  | .nan => false
  | .fin q => q ≠ 0
  | _ => true

/-- A JavaScript value in the positions the timeline records use:
absent (`undefined`), `null`, a number, or a string. -/
inductive JVal where
  | undef
  | nullv
  | num (x : JNum)
  | str (s : String)
deriving DecidableEq

/-- JavaScript boolean coercion: `undefined`, `null`, NaN, 0 and the
empty string are falsy. -/
def JVal.truthy : JVal → Bool
  | .undef => false
  | .nullv => false
  | .num x => x.truthy
  | .str s => s ≠ ""

/-- The WhiteSpace / line-terminator characters trimmed by the
ECMAScript StringToNumber conversion and by `String.prototype.trim`
(ASCII subset plus no-break space; the inputs exercised are ASCII). -/
def isJsWhitespace (c : Char) : Bool :=
  c = ' ' ∨ c = '\t' ∨ c = '\n' ∨ c = '\r' ∨ c = '\x0b' ∨ c = '\x0c' ∨ c = '\xa0'

/-- Model of `String.prototype.trim` on the character list of a string. -/
def jsTrimList (cs : List Char) : List Char :=
  ((cs.dropWhile isJsWhitespace).reverse.dropWhile isJsWhitespace).reverse

/-- Model of `String.prototype.toLowerCase` on one character
(ASCII; the month names and numeric strings exercised are ASCII). -/
def jsToLowerChar (c : Char) : Char :=
  if 'A' ≤ c ∧ c ≤ 'Z' then Char.ofNat (c.toNat + 32) else c

/-- Value of a hexadecimal digit character, if it is one. -/
def digitVal (c : Char) : Option ℕ :=
  if '0' ≤ c ∧ c ≤ '9' then some (c.toNat - 48)
  else if 'a' ≤ c ∧ c ≤ 'f' then some (c.toNat - 87)
  else if 'A' ≤ c ∧ c ≤ 'F' then some (c.toNat - 55)
  else none

/-- Parse a non-empty run of digits in base `b`; `none` when empty or
when any character is not a digit of that base. -/
def parseNatBase (b : ℕ) (cs : List Char) : Option ℕ :=
  if cs.isEmpty then none
  else cs.foldlM (fun acc c =>
    match digitVal c with
    | some d => if d < b then some (acc * b + d) else none
    | none => none) 0

/-- Numeric value of a run of decimal digit characters. -/
def natOfDigits (cs : List Char) : ℕ :=
  cs.foldl (fun a c => a * 10 + (c.toNat - 48)) 0

/-- Parse the ExponentPart of a decimal literal (the characters after
the `e`): an optional sign followed by decimal digits. -/
def parseExpPart : List Char → Option ℤ
  | '+' :: rest => (parseNatBase 10 rest).map (fun n => (n : ℤ))
  | '-' :: rest => (parseNatBase 10 rest).map (fun n => -(n : ℤ))
  | rest => (parseNatBase 10 rest).map (fun n => (n : ℤ))

/-- Scale a mantissa by a signed power of ten. -/
def applyExp (m : ℚ) (e : ℤ) : ℚ :=
  if 0 ≤ e then m * (10 : ℚ) ^ e.toNat else m / (10 : ℚ) ^ (-e).toNat

/-- Decimal digit test. -/
def isDecDigit (c : Char) : Bool := '0' ≤ c ∧ c ≤ '9'

/-- Parse an unsigned decimal literal (StrUnsignedDecimalLiteral without
the Infinity form): `digits [. digits] [exp]` or `. digits [exp]`. -/
def parseUnsignedDec (cs : List Char) : Option ℚ :=
  let p := cs.span isDecDigit
  match p.2 with
  | [] => if p.1.isEmpty then none else some (natOfDigits p.1 : ℚ)
  | '.' :: rest2 =>
    let f := rest2.span isDecDigit
    if p.1.isEmpty ∧ f.1.isEmpty then none
    else
      let base : ℚ := (natOfDigits p.1 : ℚ) + (natOfDigits f.1 : ℚ) / (10 : ℚ) ^ f.1.length
      match f.2 with
      | [] => some base
      | 'e' :: es => (parseExpPart es).map (applyExp base)
      | 'E' :: es => (parseExpPart es).map (applyExp base)
      | _ => none
  | 'e' :: es => if p.1.isEmpty then none else (parseExpPart es).map (applyExp (natOfDigits p.1 : ℚ))
  | 'E' :: es => if p.1.isEmpty then none else (parseExpPart es).map (applyExp (natOfDigits p.1 : ℚ))
  | _ => none

/-- Model of the ECMAScript StringToNumber conversion (what `Number(s)`
does to a string): trim, empty means 0, `0x`/`0o`/`0b` radix literals,
otherwise an optionally signed decimal literal or `Infinity`, anything
else is NaN.  Values are exact rationals. -/
def jsStringToNumber (s : String) : JNum :=
  let cs := jsTrimList s.data
  if cs.isEmpty then .fin 0
  else if cs.take 2 = ['0', 'x'] ∨ cs.take 2 = ['0', 'X'] then
    match parseNatBase 16 (cs.drop 2) with
    | some n => .fin (n : ℚ)
    | none => .nan
  else if cs.take 2 = ['0', 'o'] ∨ cs.take 2 = ['0', 'O'] then
    match parseNatBase 8 (cs.drop 2) with
    | some n => .fin (n : ℚ)
    | none => .nan
  else if cs.take 2 = ['0', 'b'] ∨ cs.take 2 = ['0', 'B'] then
    match parseNatBase 2 (cs.drop 2) with
    | some n => .fin (n : ℚ)
    | none => .nan
  else
    let sp : Bool × List Char :=
      match cs with
      | '+' :: r => (false, r)
      | '-' :: r => (true, r)
      | r => (false, r)
    if sp.2 = "Infinity".data then (if sp.1 then .negInf else .posInf)
    else
      match parseUnsignedDec sp.2 with
      | some q => .fin (if sp.1 then -q else q)
      | none => .nan

/-- Model of the JavaScript `Number(v)` coercion on the value shapes the
timeline records use. -/
def jsToNumber : JVal → JNum
  | .undef => .nan
  | .nullv => .fin 0
  | .num x => x
  | .str s => jsStringToNumber s

/-- Left-pad a digit string with zeros to the requested length. -/
def padLeftZeros (s : List Char) (n : ℕ) : List Char :=
  List.replicate (n - s.length) '0' ++ s

/-- Decimal rendering of a rational whose denominator divides a power of
ten — exactly the finite values JavaScript number-to-string produces for
the short decimals this pipeline handles.  Other denominators (never
produced by the pipeline) fall back to fraction notation. -/
def decimalRepr (q : ℚ) : String :=
  if q.den = 1 then toString q.num
  else
    match (List.range 64).find? (fun k => (q * (10 : ℚ) ^ (k + 1)).den = 1) with
    | some k0 =>
      let k := k0 + 1
      let n := (q * (10 : ℚ) ^ k).num.natAbs
      let ds := padLeftZeros (Nat.toDigits 10 n) (k + 1)
      (if q < 0 then "-" else "") ++ String.mk (ds.take (ds.length - k)) ++ "." ++ String.mk (ds.drop (ds.length - k))
    | none => toString q.num ++ "/" ++ toString q.den

/-- Model of JavaScript number-to-string (`String(x)`, template
interpolation) on the values the pipeline handles. -/
def jsNumToString : JNum → String
  | .nan => "NaN"
  | .posInf => "Infinity"
  | .negInf => "-Infinity"
  | .fin q => decimalRepr q

/-- Model of JavaScript string interpolation of one of our values. -/
def jsValToString : JVal → String
  | .undef => "undefined"
  | .nullv => "null"
  | .num x => jsNumToString x
  | .str s => s

/-- The MONTH_MAP constant of script.js: full month names and the
common abbreviations. -/
def MONTH_MAP : List (String × ℕ) :=
  [("january", 1), ("february", 2), ("march", 3), ("april", 4),
   ("may", 5), ("june", 6), ("july", 7), ("august", 8),
   ("september", 9), ("october", 10), ("november", 11), ("december", 12),
   ("jan", 1), ("feb", 2), ("mar", 3), ("apr", 4),
   ("jun", 6), ("jul", 7), ("aug", 8), ("sep", 9),
   ("sept", 9), ("oct", 10), ("nov", 11), ("dec", 12)]

/-- Model of `Math.trunc`: round toward zero. -/
def jsTrunc (q : ℚ) : ℤ := if 0 ≤ q then q.floor else q.ceil

/-- Embedding of `parseMonth` (script.js).  `undefined`/`null` give
`null`; a finite number is truncated and accepted in [1,12]; a string is
trimmed and lowercased, parsed as a number with the same bound (note: a
finite in-range parse is returned as is, without truncation), a
non-finite parse falls back to the MONTH_MAP lookup; the `|| null` after
the lookup is the identity because every table value is nonzero. -/
def parseMonth : JVal → Option ℚ
  | .undef => none
  | .nullv => none
  | .num x =>
    match x with
    | .fin q =>
      let n := jsTrunc q
      if 1 ≤ n ∧ n ≤ 12 then some (n : ℚ) else none
    | _ => none
  | .str s =>
    let t : String := ⟨(jsTrimList s.data).map jsToLowerChar⟩
    match jsStringToNumber t with
    | .fin q => if 1 ≤ q ∧ q ≤ 12 then some q else none
    | _ => (MONTH_MAP.lookup t).map (fun n : ℕ => (n : ℚ))

/-- JavaScript truthiness of a possibly-absent string field:
absent and empty are falsy. -/
def truthyStr : Option String → Bool
  | none => false
  | some s => s ≠ ""

/-- Model of `x || d` for a possibly-absent string field with a string
default. -/
def jsOrDefault (o : Option String) (d : String) : String :=
  match o with
  | some s => if s = "" then d else s
  | none => d

/-- Template interpolation of a possibly-absent string field
(an absent field prints as `undefined`). -/
def optStrVal : Option String → String
  | some s => s
  | none => "undefined"

/-- Model of `event.color || null` and of `if (event.color)`:
the color is used only when truthy. -/
def truthyColor : Option String → Option String
  | some s => if s = "" then none else some s
  | none => none

/-- Model of `parseMonth(...) || 1`: `null` and 0 fall back to 1.
(`parseMonth` in fact never returns 0, but the embedding mirrors the
truthiness test of the source.) -/
def jsOr1 : Option ℚ → ℚ
  | none => 1
  | some q => if q = 0 then 1 else q

/-- A raw record of `timeline.json`, with the field shapes the input
format documents: `name`/`description`/`color` strings (possibly
absent), `month` and `year` arbitrary string-or-number values. -/
structure RawEvent where
  name : Option String
  description : Option String
  month : JVal
  year : JVal
  color : Option String
deriving DecidableEq

/-- The parsed JSON document handed to the normalizer: either an array
of records or some non-array value. -/
inductive JSONInput where
  | notArr
  | arr (events : List RawEvent)
deriving DecidableEq

/-- The sort order selected in the UI (the `state.sortOrder` string,
which the code only ever compares against the literal `'asc'`). -/
inductive SortOrder where
  | asc
  | desc
deriving DecidableEq

/-- Negation of a JavaScript number. -/
def JNum.neg : JNum → JNum
  | .nan => .nan
  | .posInf => .negInf
  | .negInf => .posInf
  | .fin q => .fin (-q)

/-- IEEE-style addition on our number model. -/
def JNum.add : JNum → JNum → JNum
  | .nan, _ => .nan
  | _, .nan => .nan
  | .posInf, .negInf => .nan
  | .negInf, .posInf => .nan
  | .posInf, _ => .posInf
  | _, .posInf => .posInf
  | .negInf, _ => .negInf
  | _, .negInf => .negInf
  | .fin a, .fin b => .fin (a + b)

/-- IEEE-style subtraction: `a - b = a + (-b)`. -/
def JNum.sub (a b : JNum) : JNum := a.add b.neg

/-- IEEE-style multiplication on our number model. -/
def JNum.mul : JNum → JNum → JNum
  | .nan, _ => .nan
  | _, .nan => .nan
  | .posInf, .posInf => .posInf
  | .posInf, .negInf => .negInf
  | .negInf, .posInf => .negInf
  | .negInf, .negInf => .posInf
  | .posInf, .fin q => if q = 0 then .nan else if 0 < q then .posInf else .negInf
  | .fin q, .posInf => if q = 0 then .nan else if 0 < q then .posInf else .negInf
  | .negInf, .fin q => if q = 0 then .nan else if 0 < q then .negInf else .posInf
  | .fin q, .negInf => if q = 0 then .nan else if 0 < q then .negInf else .posInf
  | .fin a, .fin b => .fin (a * b)

/-- Model of `Math.min` on two numbers (NaN-poisoning; -0 conflated). -/
def mathMin : JNum → JNum → JNum
  | .nan, _ => .nan
  | _, .nan => .nan
  | .negInf, _ => .negInf
  | _, .negInf => .negInf
  | .posInf, b => b
  | a, .posInf => a
  | .fin a, .fin b => .fin (min a b)

/-- Model of `Math.max` on two numbers (NaN-poisoning; -0 conflated). -/
def mathMax : JNum → JNum → JNum
  | .nan, _ => .nan
  | _, .nan => .nan
  | .posInf, _ => .posInf
  | _, .posInf => .posInf
  | .negInf, b => b
  | a, .negInf => a
  | .fin a, .fin b => .fin (max a b)

/-- Model of the strict inequality `a !== b` on two numbers:
NaN is unequal to everything, including itself. -/
def jsStrictNe : JNum → JNum → Bool
  | .nan, _ => true
  | _, .nan => true
  | .posInf, .posInf => false
  | .negInf, .negInf => false
  | .fin a, .fin b => a ≠ b
  | _, _ => true

/-- A comparator return value, reduced to a sign surrogate as the
ECMAScript SortCompare operation consumes it: only the sign of the
result matters, and a NaN result counts as +0. -/
def toCompareResult : JNum → ℚ
  | .nan => 0
  | .posInf => 1
  | .negInf => -1
  | .fin q => q

/-- The finite value of a number, with a junk default (only applied to
numbers already known to be finite). -/
def finValOr0 : JNum → ℚ
  | .fin q => q
  | _ => 0

/-- Stable insertion of `a` into `l`: `a` goes in front of the first
element `b` with `le a b`, hence behind every earlier element it ties
with. -/
def insertSorted (le : α → α → Bool) (a : α) : List α → List α
  | [] => [a]
  | b :: t => if le a b then a :: b :: t else b :: insertSorted le a t

/-- Stable sort with respect to the boolean relation `le`.  This is the
model of `Array.prototype.sort(comparator)` (with
`le a b := comparator a b ≤ 0`): ECMAScript requires the sort to be
stable, and for a consistent comparator the stable sorted permutation
is unique, so any stable sorting algorithm denotes the same function. -/
def stableSort (le : α → α → Bool) : List α → List α
  | [] => []
  | a :: t => insertSorted le a (stableSort le t)

/-- HTML serialization of one character of a text node. -/
def escapeChar (c : Char) : List Char :=
  if c = '&' then "&amp;".data
  else if c = '<' then "&lt;".data
  else if c = '>' then "&gt;".data
  else if c = '"' then "&quot;".data
  else [c]

/-- HTML serialization of a text node: how a string inserted via
`textContent` appears in the markup the browser round-trips. -/
def htmlEscape (s : String) : String := ⟨s.data.foldr (fun c acc => escapeChar c ++ acc) []⟩

/-- A string is free of the characters that open or close HTML tags. -/
def noMarkupChars (s : String) : Bool := s.data.all (fun c => c ≠ '<' ∧ c ≠ '>')

/-- A fetch response: the HTTP status, its status text, and the parsed
JSON body (`none` when `response.json()` would reject). -/
structure FetchResponse where
  status : ℕ
  statusText : String
  body : Option JSONInput
deriving DecidableEq

/-- The `Response.ok` accessor of the Fetch standard: status in the
inclusive range 200–299. -/
def respOk (r : FetchResponse) : Bool := 200 ≤ r.status ∧ r.status ≤ 299

/-- The message of the exception `response.json()` raises on a body
that is not valid JSON (the exact text is engine-specific; the pipeline
only forwards it). -/
def jsonSyntaxError : String := "Unexpected token"

namespace ScriptJs

/-- The layout constants of CONFIG (script.js). -/
def GRAPH_START_YEAR : ℚ := 2010

/-- CONFIG.GRAPH_PIXELS_PER_YEAR (script.js). -/
def GRAPH_PIXELS_PER_YEAR : ℚ := 200

/-- CONFIG.GRAPH_BASE_OFFSET (script.js). -/
def GRAPH_BASE_OFFSET : ℚ := 50

/-- CONFIG.GRAPH_Y_POSITIONS (script.js): the palette of vertical
offsets, cycled by index. -/
def GRAPH_Y_POSITIONS : List String := ["50px", "250px", "450px", "150px", "350px"]

/-- A normalized event of script.js: the spread of the raw record
(`name`, `description`, `month`, `color` kept as they came) together
with the coerced `year`, the resolved `__monthNum` and the position
`__originalIndex`.  The `year` field holds a rational because the
normalizer only constructs events whose year coercion is finite. -/
structure Event where
  name : Option String
  description : Option String
  month : JVal
  color : Option String
  year : ℚ
  __monthNum : ℚ
  __originalIndex : ℕ
deriving DecidableEq

/-- The keep condition of processJSON (script.js), the negation of the
skip test `!event.name || !yearNum || !Number.isFinite(yearNum)`. -/
def keeps (r : RawEvent) : Bool :=
  truthyStr r.name ∧ (jsToNumber r.year).truthy ∧ (jsToNumber r.year).isFinite

/-- The event processJSON builds for a kept record: the record spread
plus `year: yearNum`, `__monthNum: monthNum || 1` and
`__originalIndex: index`.  Under `keeps` the year coercion is finite
and `finValOr0` is exactly that value. -/
def keptEvent (i : ℕ) (r : RawEvent) : Event :=
  { name := r.name
  , description := r.description
  , month := r.month
  , color := r.color
  , year := finValOr0 (jsToNumber r.year)
  , __monthNum := jsOr1 (parseMonth r.month)
  , __originalIndex := i }

/-- The per-record step of processJSON's `.map`: `null` (dropped by the
`.filter(Boolean)`) for an invalid record, the normalized event
otherwise. -/
def mkEvent (i : ℕ) (r : RawEvent) : Option Event :=
  if keeps r then some (keptEvent i r) else none

/-- The normalized list processJSON builds from an array input:
map then filter out the nulls. -/
def normalizeArr (raws : List RawEvent) : List Event :=
  raws.enum.filterMap (fun p => mkEvent p.1 p.2)

/-- Embedding of processJSON (script.js).  A non-array input raises
`Error('Timeline data must be an array')`, modelled as `Except.error`;
an array is normalized record by record. -/
def processJSON : JSONInput → Except String (List Event)
  | .notArr => .error "Timeline data must be an array"
  | .arr raws => .ok (normalizeArr raws)

/-- The comparator of applySort (script.js): year difference when the
years differ strictly, month difference otherwise, with the operand
order flipped for descending. -/
def cmpEvents (order : SortOrder) (a b : Event) : ℚ :=
  if a.year ≠ b.year then
    match order with
    | .asc => a.year - b.year
    | .desc => b.year - a.year
  else
    match order with
    | .asc => a.__monthNum - b.__monthNum
    | .desc => b.__monthNum - a.__monthNum

/-- The boolean order the comparator induces on the sorted output:
`a` may precede `b` exactly when the comparator does not require the
pair to be swapped. -/
def sortLe (order : SortOrder) (a b : Event) : Bool := cmpEvents order a b ≤ 0

/-- The sorted sequence `state.events.sort(comparator)` produces
(Array.prototype.sort is stable, see `stableSort`). -/
def sortedEvents (order : SortOrder) (evs : List Event) : List Event :=
  stableSort (sortLe order) evs

/-- The part of the global mutable `state` the sorter touches. -/
structure AppState where
  events : List Event
  sortOrder : SortOrder
deriving DecidableEq

/-- Embedding of applySort (script.js): `state.events.sort(...)` sorts
the stored array in place, so in state-passing form the state after the
call holds the sorted contents in the `events` slot.  (The subsequent
renderTimeline call is display-only.) -/
def applySort (s : AppState) : AppState :=
  { s with events := sortedEvents s.sortOrder s.events }

/-- Embedding of calculateGraphPosition (script.js): the returned
object holds CSS strings, `left` interpolating the computed number. -/
structure GraphPos where
  left : String
  top : String
deriving DecidableEq

/-- Embedding of calculateGraphPosition (script.js).  The index into
GRAPH_Y_POSITIONS is always in range, so the `getD` default is never
used. -/
def calculateGraphPosition (event : Event) (index : ℕ) : GraphPos :=
  let yearDiff := event.year - GRAPH_START_YEAR
  let monthOffset := (if event.__monthNum = 0 then 1 else event.__monthNum) / 12
  let xPos := (yearDiff + monthOffset) * GRAPH_PIXELS_PER_YEAR + GRAPH_BASE_OFFSET
  { left := decimalRepr xPos ++ "px"
  , top := GRAPH_Y_POSITIONS.getD (index % GRAPH_Y_POSITIONS.length) "" }

/-- Embedding of calculateGraphWidth (script.js): the viewport width
for an empty set, otherwise the span from the configured start year to
the year of the last event of the (sorted) working array, at 250 pixels
per year plus 500, floored by the viewport width. -/
def calculateGraphWidth (events : List Event) (innerWidth : ℚ) : ℚ :=
  match events.getLast? with
  | none => innerWidth
  | some lastEvent => max ((lastEvent.year - GRAPH_START_YEAR) * 250 + 500) innerWidth

/-- Embedding of formatMonthYear (script.js).  The two guards are
JavaScript truthiness tests.  The final return formats
`new Date(year, monthNum - 1, 1)` through `toLocaleString`, which
depends on the host locale; the oracle `locale` stands for that
rendering, applied to the year and the month number the Date was built
from. -/
def formatMonthYear (locale : ℚ → ℚ → String) (monthNum year : ℚ) : String :=
  if year = 0 then ""
  else if monthNum = 0 then decimalRepr year
  else locale year monthNum

/-- The fields buildEventCard (script.js) assigns on the card: every
text goes through `textContent` (or `setAttribute`), never through
innerHTML.  -/
structure EventCard where
  ariaLabel : String
  styleLeft : String
  styleTop : String
  accentBackground : Option String
  dateText : String
  dateDatetime : Option String
  titleText : String
  titleColor : Option String
  descText : String
deriving DecidableEq

/-- Embedding of buildEventCard (script.js). -/
def buildEventCard (locale : ℚ → ℚ → String) (currentView : String) (event : Event) (index : ℕ) : EventCard :=
  let pos := calculateGraphPosition event index
  { ariaLabel := optStrVal event.name ++ " - " ++ formatMonthYear locale event.__monthNum event.year
  , styleLeft := if currentView = "graph" then pos.left else ""
  , styleTop := if currentView = "graph" then pos.top else ""
  , accentBackground := truthyColor event.color
  , dateText := formatMonthYear locale event.__monthNum event.year
  , dateDatetime :=
      if event.year ≠ 0 ∧ event.__monthNum ≠ 0 then
        some (decimalRepr event.year ++ "-" ++ String.mk (padLeftZeros (decimalRepr event.__monthNum).data 2))
      else none
  , titleText := jsOrDefault event.name "Untitled"
  , titleColor := truthyColor event.color
  , descText := jsOrDefault event.description "" }

/-- HTML serialization of the text-bearing parts of a script.js card:
the DOM holds the strings as text nodes, so serializing the card
escapes them. -/
def cardToHTML (c : EventCard) : String :=
  "<article class=\"event\"><span class=\"event-accent\"></span><time class=\"event-date\">"
    ++ htmlEscape c.dateText
    ++ "</time><h3 class=\"event-title\">"
    ++ htmlEscape c.titleText
    ++ "</h3><p class=\"event-desc\">"
    ++ htmlEscape c.descText
    ++ "</p></article>"

/-- Normalize-and-sort applied to one response body, as the two success
paths of loadTimeline do: `processJSON(await response.json())` followed
by the applySort the former triggers. -/
def processBody (r : FetchResponse) (order : SortOrder) : Except String (List Event) :=
  match r.body with
  | none => .error jsonSyntaxError
  | some j => (processJSON j).map (sortedEvents order)

/-- Embedding of loadTimeline (script.js) as a pure function of the
response to the cache-busted fetch (`r1`), the response a bare-URI
retry would get (`r2`), and the current sort order.  The second
component counts the fetches performed (the retry is issued only on
status 404).  Errors thrown anywhere in the pipeline are caught by the
surrounding try/catch and surface as the error branch. -/
def loadTimeline (r1 r2 : FetchResponse) (order : SortOrder) : Except String (List Event) × ℕ :=
  if respOk r1 then (processBody r1 order, 1)
  else if r1.status = 404 then
    if respOk r2 then (processBody r2 order, 2)
    else (.error ("HTTP " ++ toString r1.status ++ ": " ++ r1.statusText), 2)
  else (.error ("HTTP " ++ toString r1.status ++ ": " ++ r1.statusText), 1)

end ScriptJs

namespace Variant

/-- CONFIG.layout.pixelsPerYear (part_000). -/
def pixelsPerYear : ℚ := 300

/-- CONFIG.layout.startYear (part_000). -/
def startYear : ℚ := 2010

/-- CONFIG.layout.yPositions (part_000). -/
def yPositions : List ℚ := [50, 250, 450, 150, 350, 200, 400, 100, 300, 500]

/-- CONFIG.layout.minGraphHeight (part_000). -/
def minGraphHeight : ℚ := 700

/-- A normalized event of the unnamed variant (part_000): explicit
field list rather than a spread.  `year` stays a `JNum` because this
variant's keep condition (`!year || isNaN(year)`) admits infinite
coercions. -/
structure Event where
  name : Option String
  description : String
  month : JVal
  year : JNum
  monthNumber : ℚ
  color : Option String
  originalIndex : ℕ
deriving DecidableEq

/-- Modelled from the spec: `getMonthNumber` is called by processEvents
in the unnamed variant but is not defined anywhere in the repository.
Spec §4.2 describes the month resolution it stands for: a number in
[1,12] (after truncation) is used directly; a string is trimmed and
lowercased, then parsed numerically with the same bound or looked up in
the fixed month-name table of full names and abbreviations; anything
unresolved defaults to 1 (January).  This is the resolution script.js
implements as `parseMonth` followed by `|| 1`. -/
def getMonthNumber (m : JVal) : ℚ := jsOr1 (parseMonth m)

/-- The keep condition of processEvents (part_000), the negation of
`!event.name || !year || isNaN(year)`.  Note the missing finiteness
test: an infinite year coercion is kept here. -/
def keeps (r : RawEvent) : Bool :=
  truthyStr r.name ∧ (jsToNumber r.year).truthy ∧ ¬ (jsToNumber r.year).isNaN

/-- The event processEvents builds for a kept record. -/
def keptEvent (i : ℕ) (r : RawEvent) : Event :=
  { name := r.name
  , description := jsOrDefault r.description ""
  , month := if r.month.truthy then r.month else .str ""
  , year := jsToNumber r.year
  , monthNumber := getMonthNumber r.month
  , color := truthyColor r.color
  , originalIndex := i }

/-- Embedding of processEvents (part_000): a non-array input is logged
and yields the empty list; an array is normalized record by record
(map then filter out the nulls). -/
def processEvents : JSONInput → List Event
  | .notArr => []
  | .arr raws => raws.enum.filterMap (fun p => if keeps p.2 then some (keptEvent p.1 p.2) else none)

/-- The comparator of sortEvents (part_000): textually the comparator
of script.js, evaluated here on `JNum` years (`!==` is strict
inequality; a NaN comparator result counts as 0 per SortCompare). -/
def cmpEvents (order : SortOrder) (a b : Event) : ℚ :=
  if jsStrictNe a.year b.year then
    toCompareResult
      (match order with
       | .asc => a.year.sub b.year
       | .desc => b.year.sub a.year)
  else
    match order with
    | .asc => a.monthNumber - b.monthNumber
    | .desc => b.monthNumber - a.monthNumber

/-- Embedding of sortEvents (part_000): `[...events]` copies the array,
so the input array's contents are untouched; the copy is sorted in
place (stably) and returned. -/
def sortEvents (order : SortOrder) (events : List Event) : List Event :=
  stableSort (fun a b => cmpEvents order a b ≤ 0) events

/-- Embedding of formatDate (part_000): truthiness guards on the year
and on the original month value, then plain template interpolation. -/
def formatDate (month : JVal) (year : JNum) : String :=
  if year.truthy = false then ""
  else if month.truthy = false then jsNumToString year
  else jsValToString month ++ " " ++ jsNumToString year

/-- The position object of calculateGraphPosition (part_000): plain
numbers here (the caller appends the px unit). -/
structure GraphPos where
  x : JNum
  y : ℚ
deriving DecidableEq

/-- Embedding of calculateGraphPosition (part_000).  The x computation
runs on the event's `JNum` year; the y palette has ten entries, indexed
by the sequence position modulo ten (always in range, so the `getD`
default is never used). -/
def calculateGraphPosition (event : Event) (index : ℕ) : GraphPos :=
  let yearDiff := event.year.sub (.fin startYear)
  let monthOffset := event.monthNumber / 12
  { x := ((yearDiff.add (.fin monthOffset)).mul (.fin pixelsPerYear)).add (.fin 50)
  , y := yPositions.getD (index % yPositions.length) 0 }

/-- The fields createEventCard (part_000) assigns: the aria label (set
by `setAttribute`, hence literal), the absolute position applied in
graph view, and the HTML source string assigned to `innerHTML` — the
text fields are spliced into markup verbatim. -/
structure EventCardV where
  ariaLabel : String
  stylePos : Option (String × String)
  innerHTML : String
deriving DecidableEq

/-- Embedding of createEventCard (part_000), including the exact
template literal assigned to `card.innerHTML`. -/
def createEventCard (view : String) (event : Event) (index : ℕ) : EventCardV :=
  let pos := calculateGraphPosition event index
  let accentStyle := match event.color with
    | some c => "style=\"background: " ++ c ++ ";\""
    | none => ""
  let titleStyle := match event.color with
    | some c => "style=\"color: " ++ c ++ ";\""
    | none => ""
  { ariaLabel := optStrVal event.name ++ " - " ++ formatDate event.month event.year
  , stylePos :=
      if view = "graph" then some (jsNumToString pos.x ++ "px", decimalRepr pos.y ++ "px")
      else none
  , innerHTML :=
      "\n    <span class=\"event-accent\" " ++ accentStyle
        ++ "></span>\n    <div class=\"event-date\">" ++ formatDate event.month event.year
        ++ "</div>\n    <h3 class=\"event-title\" " ++ titleStyle
        ++ ">" ++ optStrVal event.name
        ++ "</h3>\n    <div class=\"event-desc\">" ++ event.description
        ++ "</div>\n  " }

/-- Embedding of setGraphDimensions (part_000): `none` models the early
return (wrong view or no events); otherwise the pair of the computed
width (a `JNum`, since the year fold runs on `JNum` years) and
height. -/
def setGraphDimensions (view : String) (events : List Event) (innerWidth innerHeight : ℚ) : Option (JNum × ℚ) :=
  if view ≠ "graph" ∨ events.isEmpty then none
  else
    let years := events.map (fun e => e.year)
    let minYear := years.foldl mathMin .posInf
    let maxYear := years.foldl mathMax .negInf
    let yearSpan := (maxYear.sub minYear).add (.fin 1)
    let calculatedWidth := (yearSpan.mul (.fin pixelsPerYear)).add (.fin 400)
    let finalWidth := mathMax calculatedWidth (.fin innerWidth)
    let finalHeight := max minGraphHeight (innerHeight - 200)
    some (finalWidth, finalHeight)

end Variant

/-- The order the specification asks the sorter to produce: primary key
`year`, secondary key `monthNumber`, both numeric, in the direction
given by the order. -/
def keyLe (order : SortOrder) (a b : ScriptJs.Event) : Prop :=
  match order with
  | .asc => a.year < b.year ∨ (a.year = b.year ∧ a.__monthNum ≤ b.__monthNum)
  | .desc => b.year < a.year ∨ (a.year = b.year ∧ b.__monthNum ≤ a.__monthNum)

/-- The year span as the specification words it: largest year minus
smallest year of the event set (claim-side definition, used to compare
the specified container width against the one the code computes). -/
def specYearSpan (evs : List ScriptJs.Event) : ℚ :=
  match evs.map (fun e => e.year) with
  | [] => 0
  | y :: ys => ys.foldl max y - ys.foldl min y

section StableSortLemmas

variable {α : Type _} (le : α → α → Bool)

theorem mem_insertSorted (a x : α) (l : List α) :
    x ∈ insertSorted le a l ↔ x = a ∨ x ∈ l := by
  induction l with
  | nil => simp [insertSorted]
  | cons b t ih =>
    simp only [insertSorted]
    split
    · simp [List.mem_cons]
    · simp only [List.mem_cons, ih]
      tauto

theorem insertSorted_perm (a : α) (l : List α) : List.Perm (insertSorted le a l) (a :: l) := by
  induction l with
  | nil => exact List.Perm.refl _
  | cons b t ih =>
    simp only [insertSorted]
    split
    · exact List.Perm.refl _
    · exact (List.Perm.cons b ih).trans (List.Perm.swap a b t)

theorem stableSort_perm (l : List α) : List.Perm (stableSort le l) l := by
  induction l with
  | nil => exact List.Perm.refl _
  | cons a t ih => exact (insertSorted_perm le a _).trans (List.Perm.cons a ih)

theorem pairwise_insertSorted
    (total : ∀ x y, le x y = true ∨ le y x = true)
    (trans : ∀ x y z, le x y = true → le y z = true → le x z = true)
    (a : α) (l : List α) (h : l.Pairwise (fun x y => le x y = true)) :
    (insertSorted le a l).Pairwise (fun x y => le x y = true) := by
  induction l with
  | nil => simp [insertSorted]
  | cons b t ih =>
    rcases List.pairwise_cons.mp h with ⟨hb, ht⟩
    simp only [insertSorted]
    split
    · rename_i hab
      refine List.pairwise_cons.mpr ⟨?_, h⟩
      intro x hx
      rcases List.mem_cons.mp hx with rfl | hx
      · exact hab
      · exact trans a b x hab (hb x hx)
    · rename_i hab
      have hba : le b a = true := by
        rcases total a b with h' | h'
        · exact absurd h' (by simpa using hab)
        · exact h'
      refine List.pairwise_cons.mpr ⟨?_, ih ht⟩
      intro x hx
      rcases (mem_insertSorted le a x t).mp hx with rfl | hx
      · exact hba
      · exact hb x hx

theorem pairwise_stableSort
    (total : ∀ x y, le x y = true ∨ le y x = true)
    (trans : ∀ x y z, le x y = true → le y z = true → le x z = true)
    (l : List α) :
    (stableSort le l).Pairwise (fun x y => le x y = true) := by
  induction l with
  | nil => simp [stableSort]
  | cons a t ih => exact pairwise_insertSorted le total trans a _ ih

theorem filter_insertSorted (p : α → Bool) (a : α) (l : List α)
    (hk : ∀ b, p a = true → p b = true → le a b = true) :
    (insertSorted le a l).filter p = if p a then a :: l.filter p else l.filter p := by
  induction l with
  | nil => by_cases hpa : p a = true <;> simp [insertSorted, List.filter, hpa]
  | cons b t ih =>
    simp only [insertSorted]
    split
    · by_cases hpa : p a = true <;> simp [List.filter_cons, hpa]
    · rename_i hab
      by_cases hpa : p a = true
      · have hb0 : p b = false := by
          cases hpbv : p b
          · rfl
          · exact absurd (hk b hpa hpbv) (by simpa using hab)
        simp [List.filter_cons, hb0, ih, hpa]
      · have hpa' : p a = false := by simpa using hpa
        by_cases hpb : p b = true <;> simp [List.filter_cons, hpb, ih, hpa, hpa']

theorem filter_stableSort (p : α → Bool) (l : List α)
    (hk : ∀ a b, p a = true → p b = true → le a b = true) :
    (stableSort le l).filter p = l.filter p := by
  induction l with
  | nil => rfl
  | cons a t ih =>
    simp only [stableSort]
    rw [filter_insertSorted le p a _ (fun b => hk a b), ih]
    by_cases hpa : p a = true <;> simp [List.filter_cons, hpa]

end StableSortLemmas

theorem sortLe_eq_true_iff (order : SortOrder) (a b : ScriptJs.Event) :
    ScriptJs.sortLe order a b = true ↔ keyLe order a b := by
  cases order
  · simp only [ScriptJs.sortLe, ScriptJs.cmpEvents, keyLe, decide_eq_true_eq]
    split
    · rename_i h
      constructor
      · intro h'
        exact Or.inl (lt_of_le_of_ne (by linarith) h)
      · rintro (h' | ⟨he, _⟩)
        · linarith
        · exact absurd he h
    · rename_i h
      have he : a.year = b.year := by simpa using h
      constructor
      · intro h'
        exact Or.inr ⟨he, by linarith⟩
      · rintro (h' | ⟨_, hm⟩)
        · exact absurd (he ▸ h') (lt_irrefl _)
        · linarith
  · simp only [ScriptJs.sortLe, ScriptJs.cmpEvents, keyLe, decide_eq_true_eq]
    split
    · rename_i h
      constructor
      · intro h'
        exact Or.inl (lt_of_le_of_ne (by linarith) (Ne.symm h))
      · rintro (h' | ⟨he, _⟩)
        · linarith
        · exact absurd he h
    · rename_i h
      have he : a.year = b.year := by simpa using h
      constructor
      · intro h'
        exact Or.inr ⟨he, by linarith⟩
      · rintro (h' | ⟨_, hm⟩)
        · exact absurd (he ▸ h') (lt_irrefl _)
        · linarith

theorem keyLe_total (order : SortOrder) (a b : ScriptJs.Event) :
    keyLe order a b ∨ keyLe order b a := by
  cases order <;> simp only [keyLe]
  · rcases lt_trichotomy a.year b.year with h | h | h
    · exact Or.inl (Or.inl h)
    · rcases le_total a.__monthNum b.__monthNum with hm | hm
      · exact Or.inl (Or.inr ⟨h, hm⟩)
      · exact Or.inr (Or.inr ⟨h.symm, hm⟩)
    · exact Or.inr (Or.inl h)
  · rcases lt_trichotomy a.year b.year with h | h | h
    · exact Or.inr (Or.inl h)
    · rcases le_total a.__monthNum b.__monthNum with hm | hm
      · exact Or.inr (Or.inr ⟨h.symm, hm⟩)
      · exact Or.inl (Or.inr ⟨h, hm⟩)
    · exact Or.inl (Or.inl h)

theorem keyLe_trans (order : SortOrder) (a b c : ScriptJs.Event) :
    keyLe order a b → keyLe order b c → keyLe order a c := by
  cases order <;> simp only [keyLe]
  · rintro (h1 | ⟨he1, hm1⟩) (h2 | ⟨he2, hm2⟩)
    · exact Or.inl (h1.trans h2)
    · exact Or.inl (he2 ▸ h1)
    · exact Or.inl (he1 ▸ h2)
    · exact Or.inr ⟨he1.trans he2, hm1.trans hm2⟩
  · rintro (h1 | ⟨he1, hm1⟩) (h2 | ⟨he2, hm2⟩)
    · exact Or.inl (h2.trans h1)
    · exact Or.inl (he2 ▸ h1)
    · exact Or.inl (he1 ▸ h2)
    · exact Or.inr ⟨he1.trans he2, hm2.trans hm1⟩

theorem sortLe_total (order : SortOrder) (a b : ScriptJs.Event) :
    ScriptJs.sortLe order a b = true ∨ ScriptJs.sortLe order b a = true := by
  rcases keyLe_total order a b with h | h
  · exact Or.inl ((sortLe_eq_true_iff order a b).mpr h)
  · exact Or.inr ((sortLe_eq_true_iff order b a).mpr h)

theorem sortLe_trans (order : SortOrder) (a b c : ScriptJs.Event) :
    ScriptJs.sortLe order a b = true → ScriptJs.sortLe order b c = true →
    ScriptJs.sortLe order a c = true := by
  intro h1 h2
  exact (sortLe_eq_true_iff order a c).mpr
    (keyLe_trans order a b c ((sortLe_eq_true_iff order a b).mp h1)
      ((sortLe_eq_true_iff order b c).mp h2))

theorem lookup_val_bounds (l : List (String × ℕ)) (hl : ∀ p ∈ l, 1 ≤ p.2 ∧ p.2 ≤ 12)
    (t : String) (n : ℕ) (h : l.lookup t = some n) : 1 ≤ n ∧ n ≤ 12 := by
  induction l with
  | nil => simp [List.lookup] at h
  | cons p rest ih =>
    rcases p with ⟨k, v⟩
    simp only [List.lookup] at h
    split at h
    · injection h with h'
      exact h' ▸ hl (k, v) (List.mem_cons_self _ _)
    · exact ih (fun p hp => hl p (List.mem_cons_of_mem _ hp)) h

theorem parseMonth_bounds (v : JVal) (q : ℚ) (h : parseMonth v = some q) :
    1 ≤ q ∧ q ≤ 12 := by
  have hmap : ∀ p ∈ MONTH_MAP, 1 ≤ p.2 ∧ p.2 ≤ 12 := by decide
  cases v with
  | undef => simp [parseMonth] at h
  | nullv => simp [parseMonth] at h
  | num x =>
    cases x with
    | fin r =>
      simp only [parseMonth] at h
      split at h
      · rename_i hb
        injection h with h'
        subst h'
        exact ⟨by exact_mod_cast hb.1, by exact_mod_cast hb.2⟩
      · exact absurd h (by simp)
    | nan => simp [parseMonth] at h
    | posInf => simp [parseMonth] at h
    | negInf => simp [parseMonth] at h
  | str s =>
    simp only [parseMonth] at h
    rcases hE : jsStringToNumber ⟨(jsTrimList s.data).map jsToLowerChar⟩ with _ | _ | _ | r
    all_goals simp only [hE] at h
    · obtain ⟨n, hn, hq⟩ := Option.map_eq_some'.mp h
      have hb := lookup_val_bounds MONTH_MAP hmap _ n hn
      rw [← hq]
      exact ⟨by exact_mod_cast hb.1, by exact_mod_cast hb.2⟩
    · obtain ⟨n, hn, hq⟩ := Option.map_eq_some'.mp h
      have hb := lookup_val_bounds MONTH_MAP hmap _ n hn
      rw [← hq]
      exact ⟨by exact_mod_cast hb.1, by exact_mod_cast hb.2⟩
    · obtain ⟨n, hn, hq⟩ := Option.map_eq_some'.mp h
      have hb := lookup_val_bounds MONTH_MAP hmap _ n hn
      rw [← hq]
      exact ⟨by exact_mod_cast hb.1, by exact_mod_cast hb.2⟩
    · split at h
      · rename_i hb
        injection h with h'
        exact h' ▸ hb
      · exact absurd h (by simp)

theorem jsOr1_parseMonth_bounds (v : JVal) :
    1 ≤ jsOr1 (parseMonth v) ∧ jsOr1 (parseMonth v) ≤ 12 := by
  rcases hp : parseMonth v with _ | q
  · simp only [jsOr1]
    norm_num
  · have hb := parseMonth_bounds v q hp
    simp only [jsOr1]
    split
    · norm_num
    · exact hb

theorem filterMap_guard {β γ : Type _} (c : β → Bool) (g : β → γ) (l : List β) :
    l.filterMap (fun x => if c x then some (g x) else none) = (l.filter c).map g := by
  induction l with
  | nil => rfl
  | cons x t ih =>
    by_cases h : c x = true <;> simp [List.filterMap_cons, List.filter_cons, h, ih]

/-- C2 (amended): on an array input the normalizer of script.js returns
at most as many events as there are records, and every produced event
has a month number in [1,12] (defaulting to 1 when the month is
unresolvable) and a year that is the finite coercion of the source
record's year.  The month number need not be an integer: a fractional
numeric month string in range is stored as is (see the
counterexample). -/
theorem c2_normalizer_bounds (raws : List RawEvent) (out : List ScriptJs.Event)
    (h : ScriptJs.processJSON (.arr raws) = .ok out) :
    out.length ≤ raws.length
    ∧ ∀ e ∈ out, (1 ≤ e.__monthNum ∧ e.__monthNum ≤ 12)
        ∧ ∃ r ∈ raws, jsToNumber r.year = JNum.fin e.year := by
  have hout : out = ScriptJs.normalizeArr raws := by
    have := h
    simp only [ScriptJs.processJSON, Except.ok.injEq] at this
    exact this.symm
  subst hout
  constructor
  · calc (ScriptJs.normalizeArr raws).length ≤ raws.enum.length :=
        List.length_filterMap_le _ _
      _ = raws.length := List.enum_length
  · intro e he
    obtain ⟨⟨i, r⟩, hmem, hmk⟩ := List.mem_filterMap.mp he
    have hr : r ∈ raws := by
      have hget := List.mem_enum_iff_get?.mp hmem
      exact List.get?_mem hget
    simp only [ScriptJs.mkEvent] at hmk
    split at hmk
    · rename_i hkeep
      injection hmk with hmk'
      subst hmk'
      refine ⟨?_, ⟨r, hr, ?_⟩⟩
      · exact jsOr1_parseMonth_bounds r.month
      · simp only [ScriptJs.keeps, Bool.and_eq_true, decide_eq_true_eq] at hkeep
        rcases hy : jsToNumber r.year with _ | _ | _ | yq
        · rw [hy] at hkeep
          simp [JNum.isFinite] at hkeep
        · rw [hy] at hkeep
          simp [JNum.isFinite] at hkeep
        · rw [hy] at hkeep
          simp [JNum.isFinite] at hkeep
        · simp only [ScriptJs.keptEvent, hy, finValOr0]
    · exact absurd hmk (by simp)

/-- C2 counterexample: the claim calls the stored month number an
integer, but a fractional numeric month string inside [1,12] — here
"3.5" — passes the range test unrounded, so the normalized event's
month number is 7/2, which is no integer. -/
theorem c2_counterexample :
    ScriptJs.processJSON (.arr [⟨some "A", none, .str "3.5", .num (.fin 2020), none⟩])
      = .ok [⟨some "A", none, .str "3.5", none, 2020, 7/2, 0⟩]
    ∧ ¬ ∃ n : ℤ, ((7 : ℚ) / 2) = (n : ℚ) := by
  constructor
  · with_unfolding_all rfl
  · rintro ⟨n, hn⟩
    have h2 : (2 : ℚ) * (n : ℚ) = 7 := by
      rw [← hn]
      norm_num
    have h3 : (2 * n : ℤ) = 7 := by exact_mod_cast h2
    omega

theorem c2_normalizer_bounds_witness :
    ScriptJs.processJSON (.arr [⟨some "A", none, .str "3.5", .num (.fin 2020), none⟩, ⟨none, none, .undef, .num (.fin 2020), none⟩])
      = .ok [⟨some "A", none, .str "3.5", none, 2020, 7/2, 0⟩]
    ∧ ([(⟨some "A", none, .str "3.5", none, 2020, 7/2, 0⟩ : ScriptJs.Event)]).length ≤ 2
    ∧ ((1 ≤ ((7 : ℚ)/2) ∧ ((7 : ℚ)/2) ≤ 12)
        ∧ ∃ r ∈ [(⟨some "A", none, .str "3.5", .num (.fin 2020), none⟩ : RawEvent), ⟨none, none, .undef, .num (.fin 2020), none⟩],
            jsToNumber r.year = JNum.fin 2020) := by
  have h : ScriptJs.processJSON (.arr [⟨some "A", none, .str "3.5", .num (.fin 2020), none⟩, ⟨none, none, .undef, .num (.fin 2020), none⟩])
      = .ok [⟨some "A", none, .str "3.5", none, 2020, 7/2, 0⟩] := by
    with_unfolding_all rfl
  refine ⟨h, (c2_normalizer_bounds _ _ h).1, ?_⟩
  have hb := (c2_normalizer_bounds _ _ h).2 ⟨some "A", none, .str "3.5", none, 2020, 7/2, 0⟩
    (List.mem_singleton.mpr rfl)
  exact hb

/-- C3 (amended): a record of an array input is dropped if and only if
its name is absent or empty, or its year coerced to a number is NaN,
an infinity, or zero — the code's truthiness test `!yearNum` also
drops a year that coerces to 0, which the claim said would be kept.
The kept records, in input order and with their input positions,
become the output; the month never influences dropping. -/
theorem c3_drop_characterization (raws : List RawEvent) :
    ScriptJs.processJSON (.arr raws)
      = .ok ((raws.enum.filter (fun p => ScriptJs.keeps p.2)).map (fun p => ScriptJs.keptEvent p.1 p.2)) := by
  simp only [ScriptJs.processJSON, ScriptJs.normalizeArr, ScriptJs.mkEvent, Except.ok.injEq]
  exact filterMap_guard (fun p => ScriptJs.keeps p.2) (fun p => ScriptJs.keptEvent p.1 p.2) raws.enum

/-- C3 counterexample: a record with a non-empty name whose year
coerces to the finite number 0 is dropped by processJSON, although the
claim says every finite year — including 0 — is kept. -/
theorem c3_counterexample :
    ScriptJs.processJSON (.arr [⟨some "A", some "desc", .str "March", .num (.fin 0), none⟩]) = .ok []
    ∧ truthyStr (some "A") = true
    ∧ jsToNumber (.num (.fin 0)) = JNum.fin 0 := by
  refine ⟨?_, by decide, rfl⟩
  with_unfolding_all rfl

/-- C1: for every sequence of canonical events and either order, the
sorter's output is a permutation of its input, ordered by primary key
`year` and secondary key `__monthNum` in the direction of the order,
and the events carrying any fixed (year, month) key pair appear in the
output exactly as they appear in the input (stability of
Array.prototype.sort; the comparator itself returns 0 on ties). -/
theorem c1_sorter_ordered_and_stable (order : SortOrder) (evs : List ScriptJs.Event) :
    List.Perm (ScriptJs.sortedEvents order evs) evs
    ∧ (ScriptJs.sortedEvents order evs).Pairwise (keyLe order)
    ∧ ∀ y m : ℚ,
        (ScriptJs.sortedEvents order evs).filter (fun e => decide (e.year = y ∧ e.__monthNum = m))
          = evs.filter (fun e => decide (e.year = y ∧ e.__monthNum = m)) := by
  refine ⟨stableSort_perm _ evs, ?_, ?_⟩
  · exact (pairwise_stableSort _ (sortLe_total order) (sortLe_trans order) evs).imp
      (fun h => (sortLe_eq_true_iff order _ _).mp h)
  · intro y m
    apply filter_stableSort
    intro a b ha hb
    rw [decide_eq_true_eq] at ha hb
    obtain ⟨hay, ham⟩ := ha
    obtain ⟨hby, hbm⟩ := hb
    apply (sortLe_eq_true_iff order a b).mpr
    cases order
    · exact Or.inr ⟨hay.trans hby.symm, le_of_eq (ham.trans hbm.symm)⟩
    · exact Or.inr ⟨hay.trans hby.symm, le_of_eq (hbm.trans ham.symm)⟩

/-- C5 (amended): applySort (script.js) sorts the state's event array
in place — after the call the stored sequence holds the sorted
permutation of what it held before, and nothing new is returned —
while sortEvents (part_000) sorts a spread copy and returns a new
sequence that is a permutation of its input, whose own contents it
leaves untouched. -/
theorem c5_sorter_effect (s : ScriptJs.AppState) :
    (ScriptJs.applySort s).events = ScriptJs.sortedEvents s.sortOrder s.events
    ∧ List.Perm (ScriptJs.applySort s).events s.events
    ∧ ∀ (order : SortOrder) (evs : List Variant.Event),
        List.Perm (Variant.sortEvents order evs) evs :=
  ⟨rfl, stableSort_perm _ s.events, fun _ evs => stableSort_perm _ evs⟩

/-- C5 counterexample: applySort is not pure — it does not leave the
state's input sequence unchanged.  On a concrete two-event state whose
events are out of ascending order, the stored sequence after the call
differs from the one before. -/
theorem c5_counterexample :
    (ScriptJs.applySort
      { events := [⟨some "B", none, .undef, none, 2020, 1, 0⟩, ⟨some "A", none, .undef, none, 2010, 1, 1⟩]
      , sortOrder := .asc }).events
    ≠ [⟨some "B", none, .undef, none, 2020, 1, 0⟩, ⟨some "A", none, .undef, none, 2010, 1, 1⟩] := by
  with_unfolding_all decide

/-- C4 counterexample: the script.js normalizer does not yield an
empty sequence on a non-array input — it raises the error
'Timeline data must be an array' past the normalizer. -/
theorem c4_counterexample :
    ScriptJs.processJSON .notArr = .error "Timeline data must be an array" := rfl

/-- C4 (amended): on a non-array input, processEvents (part_000) logs
and returns the empty list, but processJSON (script.js) raises an
error, which loadTimeline's catch turns into the error outcome of the
load (the error panel), not an empty timeline. -/
theorem c4_nonarray_behaviour (r1 r2 : FetchResponse) (order : SortOrder)
    (h1 : respOk r1 = true) (hb : r1.body = some .notArr) :
    Variant.processEvents .notArr = []
    ∧ ScriptJs.loadTimeline r1 r2 order = (.error "Timeline data must be an array", 1) := by
  refine ⟨rfl, ?_⟩
  have hpb : ScriptJs.processBody r1 order = .error "Timeline data must be an array" := by
    simp only [ScriptJs.processBody, hb]
    rfl
  simp only [ScriptJs.loadTimeline, h1, hpb]
  rfl

theorem c4_nonarray_behaviour_witness :
    respOk ⟨200, "OK", some .notArr⟩ = true
    ∧ Variant.processEvents .notArr = []
    ∧ ScriptJs.loadTimeline ⟨200, "OK", some .notArr⟩ ⟨200, "OK", none⟩ .asc
        = (.error "Timeline data must be an array", 1) := by
  have h := c4_nonarray_behaviour ⟨200, "OK", some .notArr⟩ ⟨200, "OK", none⟩ .asc (by decide) rfl
  exact ⟨by decide, h.1, h.2⟩

theorem graph_tops_inj (a b : ℕ) (ha : a < 5) (hb : b < 5) :
    (ScriptJs.GRAPH_Y_POSITIONS.getD a "" = ScriptJs.GRAPH_Y_POSITIONS.getD b "") ↔ a = b := by
  interval_cases a <;> interval_cases b <;> decide

/-- C6 (amended): in graph view the X position of an event is
`(year - startYear + monthNumber/12) * pixelsPerYear + baseOffset`
(as a px string) and the Y position is the palette entry at the
sequence position modulo the palette size (five entries in script.js);
two events with the same (year, month) keys get the same X at any two
positions, but their Y offsets differ exactly when the positions
differ modulo the palette size — positions congruent mod 5 share the
same Y offset. -/
theorem c6_graph_position (e e' : ScriptJs.Event) (i i' : ℕ)
    (hm : ¬ e.__monthNum = 0) :
    (ScriptJs.calculateGraphPosition e i).left
        = decimalRepr ((e.year - ScriptJs.GRAPH_START_YEAR + e.__monthNum / 12) * ScriptJs.GRAPH_PIXELS_PER_YEAR + ScriptJs.GRAPH_BASE_OFFSET) ++ "px"
    ∧ (ScriptJs.calculateGraphPosition e i).top = ScriptJs.GRAPH_Y_POSITIONS.getD (i % 5) ""
    ∧ (e.year = e'.year → e.__monthNum = e'.__monthNum →
        (ScriptJs.calculateGraphPosition e i).left = (ScriptJs.calculateGraphPosition e' i').left
        ∧ ((ScriptJs.calculateGraphPosition e i).top = (ScriptJs.calculateGraphPosition e' i').top
            ↔ i % 5 = i' % 5)) := by
  have hleft : ∀ (e0 : ScriptJs.Event) (j : ℕ), ¬ e0.__monthNum = 0 →
      (ScriptJs.calculateGraphPosition e0 j).left
        = decimalRepr ((e0.year - ScriptJs.GRAPH_START_YEAR + e0.__monthNum / 12) * ScriptJs.GRAPH_PIXELS_PER_YEAR + ScriptJs.GRAPH_BASE_OFFSET) ++ "px" := by
    intro e0 j h0
    simp only [ScriptJs.calculateGraphPosition, if_neg h0]
  have htop : ∀ (e0 : ScriptJs.Event) (j : ℕ),
      (ScriptJs.calculateGraphPosition e0 j).top = ScriptJs.GRAPH_Y_POSITIONS.getD (j % 5) "" :=
    fun _ _ => rfl
  refine ⟨hleft e i hm, htop e i, ?_⟩
  intro hy hmn
  have hm' : ¬ e'.__monthNum = 0 := hmn ▸ hm
  constructor
  · rw [hleft e i hm, hleft e' i' hm', hy, hmn]
  · rw [htop e i, htop e' i']
    exact graph_tops_inj _ _ (Nat.mod_lt _ (by norm_num)) (Nat.mod_lt _ (by norm_num))

theorem c6_graph_position_witness :
    ¬ ((3 : ℚ) = 0)
    ∧ (ScriptJs.calculateGraphPosition ⟨some "A", none, .num (.fin 3), none, 2020, 3, 0⟩ 0).left
        = decimalRepr ((2020 - ScriptJs.GRAPH_START_YEAR + 3 / 12) * ScriptJs.GRAPH_PIXELS_PER_YEAR + ScriptJs.GRAPH_BASE_OFFSET) ++ "px" := by
  refine ⟨by norm_num, ?_⟩
  exact (c6_graph_position ⟨some "A", none, .num (.fin 3), none, 2020, 3, 0⟩
    ⟨some "A", none, .num (.fin 3), none, 2020, 3, 0⟩ 0 1 (by norm_num)).1

/-- C6 counterexample: two events with identical (year, monthNumber)
at the different sequence positions 0 and 5 receive the same Y offset
(the palette has five entries and cycles), contradicting the claim
that different positions always yield different Y offsets. -/
theorem c6_counterexample :
    (ScriptJs.calculateGraphPosition ⟨some "A", none, .num (.fin 3), none, 2020, 3, 0⟩ 0).left
      = (ScriptJs.calculateGraphPosition ⟨some "B", none, .num (.fin 3), none, 2020, 3, 1⟩ 5).left
    ∧ (ScriptJs.calculateGraphPosition ⟨some "A", none, .num (.fin 3), none, 2020, 3, 0⟩ 0).top
      = (ScriptJs.calculateGraphPosition ⟨some "B", none, .num (.fin 3), none, 2020, 3, 1⟩ 5).top
    ∧ (0 : ℕ) ≠ 5 := by
  refine ⟨?_, ?_, by decide⟩
  · with_unfolding_all rfl
  · with_unfolding_all rfl

theorem foldl_mathMin_fin (qs : List ℚ) (a : ℚ) :
    (qs.map JNum.fin).foldl mathMin (.fin a) = .fin (qs.foldl min a) := by
  induction qs generalizing a with
  | nil => rfl
  | cons q t ih =>
    simp only [List.map_cons, List.foldl_cons]
    rw [show mathMin (.fin a) (.fin q) = .fin (min a q) from rfl, ih]

theorem foldl_mathMax_fin (qs : List ℚ) (a : ℚ) :
    (qs.map JNum.fin).foldl mathMax (.fin a) = .fin (qs.foldl max a) := by
  induction qs generalizing a with
  | nil => rfl
  | cons q t ih =>
    simp only [List.map_cons, List.foldl_cons]
    rw [show mathMax (.fin a) (.fin q) = .fin (max a q) from rfl, ih]

theorem jnum_fin_sub (a b : ℚ) : (JNum.fin a).sub (.fin b) = .fin (a - b) := by
  simp only [JNum.sub, JNum.neg, JNum.add]
  rw [← sub_eq_add_neg]

/-- C7 (amended): the graph container width of script.js is
`max((lastEvent.year - startYear) * 250 + 500, viewport width)` — a
250 px/year constant different from the 200 px/year used for event X
positions, measured from the configured start year to the year of the
last element of the (sorted) working array, not the span of the
events' years.  The part_000 variant instead computes
`max((maxYear - minYear + 1) * pixelsPerYear + 400, viewport width)`
with the same 300 px/year constant its X positions use. -/
theorem c7_graph_width :
    (∀ (evs : List ScriptJs.Event) (vw : ℚ) (e : ScriptJs.Event),
       evs.getLast? = some e →
       ScriptJs.calculateGraphWidth evs vw
         = max ((e.year - ScriptJs.GRAPH_START_YEAR) * 250 + 500) vw)
    ∧ (∀ (evsP : List Variant.Event) (q : ℚ) (rest : List ℚ) (vw vh : ℚ),
       evsP.map (fun e => e.year) = (q :: rest).map JNum.fin →
       Variant.setGraphDimensions "graph" evsP vw vh
         = some (.fin (max ((rest.foldl max q - rest.foldl min q + 1) * Variant.pixelsPerYear + 400) vw),
                 max Variant.minGraphHeight (vh - 200))) := by
  constructor
  · intro evs vw e hlast
    simp only [ScriptJs.calculateGraphWidth, hlast]
  · intro evsP q rest vw vh hmap
    have hne : evsP.isEmpty = false := by
      cases evsP with
      | nil => simp at hmap
      | cons _ _ => rfl
    have hcond : ¬ (("graph" : String) ≠ "graph" ∨ evsP.isEmpty = true) := by
      rintro (h1 | h2)
      · exact h1 rfl
      · rw [hne] at h2
        cases h2
    simp only [Variant.setGraphDimensions, if_neg hcond, hmap, List.map_cons, List.foldl_cons]
    rw [show mathMin .posInf (.fin q) = .fin q from rfl,
        show mathMax .negInf (.fin q) = .fin q from rfl,
        foldl_mathMin_fin, foldl_mathMax_fin, jnum_fin_sub]
    rw [show ((JNum.fin (rest.foldl max q - rest.foldl min q)).add (.fin 1))
          = .fin (rest.foldl max q - rest.foldl min q + 1) from rfl]
    rw [show ((JNum.fin (rest.foldl max q - rest.foldl min q + 1)).mul (.fin Variant.pixelsPerYear))
          = .fin ((rest.foldl max q - rest.foldl min q + 1) * Variant.pixelsPerYear) from rfl]
    rw [show ((JNum.fin ((rest.foldl max q - rest.foldl min q + 1) * Variant.pixelsPerYear)).add (.fin 400))
          = .fin ((rest.foldl max q - rest.foldl min q + 1) * Variant.pixelsPerYear + 400) from rfl]
    rw [show (mathMax (.fin ((rest.foldl max q - rest.foldl min q + 1) * Variant.pixelsPerYear + 400)) (.fin vw))
          = .fin (max ((rest.foldl max q - rest.foldl min q + 1) * Variant.pixelsPerYear + 400) vw) from rfl]

/-- C7 counterexample: no margin constant makes the script.js graph
width equal `max(viewport, yearSpan * pixelsPerYear + margin)` with
the span of the events' years and the 200 px/year X constant: two
single-event sets have span 0, the same viewport, and different
computed widths. -/
theorem c7_counterexample :
    ¬ ∃ margin : ℚ, ∀ (evs : List ScriptJs.Event) (vw : ℚ), evs ≠ [] →
        ScriptJs.calculateGraphWidth evs vw
          = max vw (specYearSpan evs * ScriptJs.GRAPH_PIXELS_PER_YEAR + margin) := by
  rintro ⟨m, hm⟩
  have h1 := hm [⟨some "A", none, .undef, none, 2030, 1, 0⟩] 1000 (by simp)
  have h2 := hm [⟨some "B", none, .undef, none, 2010, 1, 0⟩] 1000 (by simp)
  have e1 : ScriptJs.calculateGraphWidth [⟨some "A", none, .undef, none, 2030, 1, 0⟩] 1000 = 5500 := by
    rw [show ScriptJs.calculateGraphWidth [⟨some "A", none, .undef, none, 2030, 1, 0⟩] 1000
          = max (((2030 : ℚ) - ScriptJs.GRAPH_START_YEAR) * 250 + 500) 1000 from rfl]
    rw [show ScriptJs.GRAPH_START_YEAR = (2010 : ℚ) from rfl]
    rw [max_eq_left (by norm_num)]
    norm_num
  have e2 : ScriptJs.calculateGraphWidth [⟨some "B", none, .undef, none, 2010, 1, 0⟩] 1000 = 1000 := by
    rw [show ScriptJs.calculateGraphWidth [⟨some "B", none, .undef, none, 2010, 1, 0⟩] 1000
          = max (((2010 : ℚ) - ScriptJs.GRAPH_START_YEAR) * 250 + 500) 1000 from rfl]
    rw [show ScriptJs.GRAPH_START_YEAR = (2010 : ℚ) from rfl]
    rw [max_eq_right (by norm_num)]
  have s1 : specYearSpan [⟨some "A", none, .undef, none, 2030, 1, 0⟩] = 0 := by
    rw [show specYearSpan [⟨some "A", none, .undef, none, 2030, 1, 0⟩] = (2030 : ℚ) - 2030 from rfl]
    norm_num
  have s2 : specYearSpan [⟨some "B", none, .undef, none, 2010, 1, 0⟩] = 0 := by
    rw [show specYearSpan [⟨some "B", none, .undef, none, 2010, 1, 0⟩] = (2010 : ℚ) - 2010 from rfl]
    norm_num
  rw [e1, s1] at h1
  rw [e2, s2] at h2
  rw [zero_mul, zero_add] at h1 h2
  rw [← h2] at h1
  norm_num at h1

theorem c7_graph_width_witness :
    ([⟨some "A", none, .undef, none, 2030, 1, 0⟩] : List ScriptJs.Event).getLast?
        = some ⟨some "A", none, .undef, none, 2030, 1, 0⟩
    ∧ ScriptJs.calculateGraphWidth [⟨some "A", none, .undef, none, 2030, 1, 0⟩] 1000
        = max (((2030 : ℚ) - ScriptJs.GRAPH_START_YEAR) * 250 + 500) 1000
    ∧ Variant.setGraphDimensions "graph" [⟨some "V", "", .str "", .fin 2015, 1, none, 0⟩] 800 900
        = some (.fin (max ((([] : List ℚ).foldl max 2015 - ([] : List ℚ).foldl min 2015 + 1) * Variant.pixelsPerYear + 400) 800),
                max Variant.minGraphHeight ((900 : ℚ) - 200)) := by
  refine ⟨rfl, ?_, ?_⟩
  · exact c7_graph_width.1 [⟨some "A", none, .undef, none, 2030, 1, 0⟩] 1000
      ⟨some "A", none, .undef, none, 2030, 1, 0⟩ rfl
  · exact c7_graph_width.2 [⟨some "V", "", .str "", .fin 2015, 1, none, 0⟩] 2015 [] 800 900 rfl

/-- C8 (amended): formatDate (part_000) produces exactly the claimed
label — the original month display text followed by the year, just the
year when the month value is falsy, and the empty string when the year
is falsy.  (script.js renders the date differently: its formatMonthYear
formats the resolved month number through the host locale and ignores
the original month text, see the counterexample.) -/
theorem c8_date_label (m : JVal) (y : JNum) :
    (y.truthy = false → Variant.formatDate m y = "")
    ∧ (y.truthy = true → m.truthy = false → Variant.formatDate m y = jsNumToString y)
    ∧ (y.truthy = true → m.truthy = true →
        Variant.formatDate m y = jsValToString m ++ " " ++ jsNumToString y) := by
  refine ⟨?_, ?_, ?_⟩
  · intro h1
    simp [Variant.formatDate, h1]
  · intro h1 h2
    simp [Variant.formatDate, h1, h2]
  · intro h1 h2
    simp [Variant.formatDate, h1, h2]

theorem c8_date_label_witness :
    (JNum.fin 2020).truthy = true
    ∧ (JVal.str "Sept").truthy = true
    ∧ Variant.formatDate (.str "Sept") (.fin 2020)
        = jsValToString (.str "Sept") ++ " " ++ jsNumToString (.fin 2020) :=
  ⟨by decide, by decide, (c8_date_label (.str "Sept") (.fin 2020)).2.2 (by decide) (by decide)⟩

/-- C8 counterexample: the script.js card's date label cannot be the
original month display text followed by the year.  Two canonical
events whose original month texts differ ("Sept" and "September") but
resolve to the same month number necessarily render identical labels —
buildEventCard only passes the resolved number and the year to the
(locale-dependent) formatter — so no locale behaviour can produce the
two labels the claim requires. -/
theorem c8_counterexample :
    ¬ ∃ locale : ℚ → ℚ → String,
      (ScriptJs.buildEventCard locale "vertical" ⟨some "E1", none, .str "Sept", none, 2020, 9, 0⟩ 0).dateText
          = "Sept 2020"
      ∧ (ScriptJs.buildEventCard locale "vertical" ⟨some "E2", none, .str "September", none, 2020, 9, 1⟩ 1).dateText
          = "September 2020" := by
  rintro ⟨L, h1, h2⟩
  have he : (ScriptJs.buildEventCard L "vertical" ⟨some "E1", none, .str "Sept", none, 2020, 9, 0⟩ 0).dateText
      = (ScriptJs.buildEventCard L "vertical" ⟨some "E2", none, .str "September", none, 2020, 9, 1⟩ 1).dateText := rfl
  rw [h1, h2] at he
  exact absurd he (by decide)

theorem noMarkup_escList (l : List Char) :
    (l.foldr (fun c acc => escapeChar c ++ acc) []).all (fun c => c ≠ '<' ∧ c ≠ '>') = true := by
  induction l with
  | nil => rfl
  | cons c t ih =>
    simp only [List.foldr_cons]
    rw [List.all_append, ih, Bool.and_true]
    unfold escapeChar
    split_ifs with h1 h2 h3 h4
    · decide
    · decide
    · decide
    · decide
    · simp [h2, h3]

theorem noMarkup_htmlEscape (s : String) : noMarkupChars (htmlEscape s) = true :=
  noMarkup_escList s.data

/-- C9 (amended): buildEventCard (script.js) assigns the untrusted
fields — title, description and date label — through textContent, so
the HTML serialization of the card contains them only HTML-escaped,
and the escaped text contains no tag-opening or tag-closing character:
nothing in those fields can become markup.  (createEventCard in
part_000 instead splices the fields verbatim into an innerHTML
template, where markup in a field becomes active markup — see the
counterexample.) -/
theorem c9_literal_text (L : ℚ → ℚ → String) (v : String) (e : ScriptJs.Event) (i : ℕ) :
    ScriptJs.cardToHTML (ScriptJs.buildEventCard L v e i)
      = "<article class=\"event\"><span class=\"event-accent\"></span><time class=\"event-date\">"
        ++ htmlEscape (ScriptJs.formatMonthYear L e.__monthNum e.year)
        ++ "</time><h3 class=\"event-title\">"
        ++ htmlEscape (jsOrDefault e.name "Untitled")
        ++ "</h3><p class=\"event-desc\">"
        ++ htmlEscape (jsOrDefault e.description "")
        ++ "</p></article>"
    ∧ noMarkupChars (htmlEscape (ScriptJs.formatMonthYear L e.__monthNum e.year)) = true
    ∧ noMarkupChars (htmlEscape (jsOrDefault e.name "Untitled")) = true
    ∧ noMarkupChars (htmlEscape (jsOrDefault e.description "")) = true :=
  ⟨rfl, noMarkup_htmlEscape _, noMarkup_htmlEscape _, noMarkup_htmlEscape _⟩

set_option maxRecDepth 4000 in
/-- C9 counterexample: the variant's createEventCard splices the event
name verbatim into the HTML source it assigns to innerHTML — a name
containing a script tag appears unescaped in tag position, so the
untrusted field is interpreted as markup (literal-text insertion would
have produced the escaped form, which differs). -/
theorem c9_counterexample :
    (Variant.createEventCard "vertical"
        ⟨some "<script>alert(1)</script>", "x", .str "January", .fin 2020, 1, none, 0⟩ 0).innerHTML
      = "\n    <span class=\"event-accent\" ></span>\n    <div class=\"event-date\">January 2020</div>\n    <h3 class=\"event-title\" ><script>alert(1)</script></h3>\n    <div class=\"event-desc\">x</div>\n  "
    ∧ htmlEscape "<script>alert(1)</script>" ≠ "<script>alert(1)</script>" := by
  refine ⟨?_, ?_⟩
  · with_unfolding_all decide
  · with_unfolding_all decide

/-- C10: when the cache-busted fetch returns 404, loadTimeline retries
exactly once against the bare URI; if that retry has a success status
and an array body, the load yields the normalized, sorted event list
parsed from the retry response (two fetches in total).  A first
response with a non-success status other than 404 is not retried (one
fetch), and neither is a successful first response. -/
theorem c10_retry_on_404 (r0 r1 r2 r3 : FetchResponse) (order : SortOrder) (raws : List RawEvent)
    (h0 : respOk r0 = true)
    (h1 : r1.status = 404)
    (h2 : respOk r2 = true)
    (h3 : r2.body = some (.arr raws))
    (h4 : respOk r3 = false)
    (h5 : r3.status ≠ 404) :
    ScriptJs.loadTimeline r1 r2 order
        = (.ok (ScriptJs.sortedEvents order (ScriptJs.normalizeArr raws)), 2)
    ∧ (ScriptJs.loadTimeline r3 r2 order).2 = 1
    ∧ (ScriptJs.loadTimeline r0 r2 order).2 = 1 := by
  have hnot1 : respOk r1 = false := by
    simp only [respOk, h1]
    decide
  refine ⟨?_, ?_, ?_⟩
  · have hpb : ScriptJs.processBody r2 order
        = .ok (ScriptJs.sortedEvents order (ScriptJs.normalizeArr raws)) := by
      simp only [ScriptJs.processBody, h3]
      rfl
    simp only [ScriptJs.loadTimeline, hnot1, h1, h2, hpb]
    rfl
  · simp only [ScriptJs.loadTimeline, h4, Bool.false_eq_true, if_false, if_neg h5]
  · simp only [ScriptJs.loadTimeline, h0]
    rfl

theorem c10_retry_on_404_witness :
    respOk ⟨404, "Not Found", none⟩ = false
    ∧ ScriptJs.loadTimeline ⟨404, "Not Found", none⟩ ⟨200, "OK", some (.arr [⟨some "A", none, .num (.fin 5), .num (.fin 2020), none⟩])⟩ .asc
        = (.ok (ScriptJs.sortedEvents .asc (ScriptJs.normalizeArr [⟨some "A", none, .num (.fin 5), .num (.fin 2020), none⟩])), 2)
    ∧ (ScriptJs.loadTimeline ⟨500, "Server Error", none⟩ ⟨200, "OK", some (.arr [⟨some "A", none, .num (.fin 5), .num (.fin 2020), none⟩])⟩ .asc).2 = 1
    ∧ (ScriptJs.loadTimeline ⟨200, "OK", some (.arr [])⟩ ⟨200, "OK", some (.arr [⟨some "A", none, .num (.fin 5), .num (.fin 2020), none⟩])⟩ .asc).2 = 1 := by
  have h := c10_retry_on_404 ⟨200, "OK", some (.arr [])⟩ ⟨404, "Not Found", none⟩
    ⟨200, "OK", some (.arr [⟨some "A", none, .num (.fin 5), .num (.fin 2020), none⟩])⟩
    ⟨500, "Server Error", none⟩ .asc [⟨some "A", none, .num (.fin 5), .num (.fin 2020), none⟩]
    (by decide) rfl (by decide) rfl (by decide) (by decide)
  exact ⟨by decide, h.1, h.2.1, h.2.2⟩

end Timeline
